/-
Verification of the core logic of `cpapi.py` (ClearPass API client tool).

The program's pure logic is embedded shallowly:
  * `matchParam` models the anchored regex `^(?P<name>\w+)(?P<op>==|=)(?P<value>.*)$`
    compiled with `re.DOTALL` (so `.` also matches newline characters);
  * `parseParams` models `CommandLineInterface.parseParams`;
  * `validateMethod` models `CommandLineInterface.validateMethod`;
  * `argBool` / `argStr` model `CommandLineInterface.argBool` / `argStr`,
    with the docopt flag value and the environment passed in explicitly;
  * `mainModel` models the body of `CommandLineInterface.main`, with the
    external collaborator `api.Client.invoke` passed in as an oracle and the
    process side effects (stdout, stderr, exit status) made explicit.

Python dictionaries are modelled as association lists with unique keys
(`dictInsert` replaces the value of an existing key in place, otherwise
appends), and the environment as a partial map `String → Option String`.
-/
import Mathlib

set_option autoImplicit false

namespace Cpapi

/-- A character matched by `\w` in the parameter regex: letters, digits and
underscore (the spec's reading of Python's word characters). -/
def isWordChar (c : Char) : Bool :=
  c.isAlphanum || c = '_'

/-- Split a character list into its longest prefix of word characters and the
rest, as the greedy `\w+` group does. -/
def takeWord : List Char → List Char × List Char
  | [] => ([], [])
  | c :: rest =>
    if isWordChar c then
      ((takeWord rest).1.cons c, (takeWord rest).2)
    else
      ([], c :: rest)

/-- Model of `_matchParams.match(param)` for the pattern
`^(?P<name>\w+)(?P<op>==|=)(?P<value>.*)$` with `re.DOTALL`: the name group is
a non-empty maximal run of word characters, the operator is `==` when the two
characters after the name are both `=` (the alternation `==|=` tries `==`
first), otherwise `=`, and the value group is the (unconstrained) remainder of
the string, newlines included. Returns `(name, op, value)` on a match. -/
def matchParam (s : String) : Option (String × String × String) :=
  let w := (takeWord s.data).1
  let r := (takeWord s.data).2
  if w = [] then none
  else if r.take 2 = ['=', '='] then some (⟨w⟩, "==", ⟨r.drop 2⟩)
  else if r.take 1 = ['='] then some (⟨w⟩, "=", ⟨r.drop 1⟩)
  else none

/-- Python `dict` assignment `d[k] = v` on an association list with unique
keys: replace the value at the first occurrence of `k`, or append the new
binding at the end. -/
def dictInsert : List (String × String) → String → String → List (String × String)
  | [], k, v => [(k, v)]
  | (k0, v0) :: rest, k, v =>
    if k0 = k then (k0, v) :: rest else (k0, v0) :: dictInsert rest k v

/-- Python `dict` lookup `d[k]` (as an `Option`): first binding whose key is
`k`. -/
def dictGet : List (String × String) → String → Option String
  | [], _ => none
  | (k0, v0) :: rest, k =>
    if k0 = k then some v0 else dictGet rest k

/-- One iteration of the `for param in params` loop of `parseParams`: the
accumulator is `(query, body, bad_params)`. -/
def paramsStep (acc : List (String × String) × List (String × String) × List String)
    (param : String) :
    List (String × String) × List (String × String) × List String :=
  match matchParam param with
  | none => (acc.1, acc.2.1, acc.2.2 ++ [param])
  | some (name, op, value) =>
    if op = "==" then
      (dictInsert acc.1 name value, acc.2.1, acc.2.2)
    else
      (acc.1, dictInsert acc.2.1 name value, acc.2.2)

/-- Model of `CommandLineInterface.parseParams`: classify every raw parameter
token, accumulating unmatched tokens into `bad_params`; afterwards fail with a
`ConfigurationException` listing all bad tokens if there was any, otherwise
return the `(query, body)` pair of mappings. -/
def parseParams (params : List String) :
    Except String (List (String × String) × List (String × String)) :=
  let acc := params.foldl paramsStep ([], [], [])
  if acc.2.2 = [] then
    Except.ok (acc.1, acc.2.1)
  else
    Except.error ("Invalid parameter(s): " ++ String.intercalate ", " acc.2.2)

/-- Model of Python's `str.upper()` (ASCII fragment, which covers every
method token compared against the ASCII method set): upper-case each
character. -/
def pyUpper (s : String) : String := ⟨s.data.map Char.toUpper⟩

/-- The fixed method set of `validateMethod`. -/
def httpMethods : List String := ["GET", "POST", "PATCH", "PUT", "DELETE"]

/-- Model of `CommandLineInterface.validateMethod`: upper-case the token, fail
with a `ConfigurationException` naming the original token when the result is
not one of the five known methods, and return the upper-cased form
otherwise. -/
def validateMethod (method : String) : Except String String :=
  if pyUpper method ∈ httpMethods then
    Except.ok (pyUpper method)
  else
    Except.error ("Invalid HTTP method: " ++ method)

/-- The case-sensitive truthy set `('1', 'true', 'on', 'yes')` used by
`argBool` to coerce environment values. -/
def envTruthy : List String := ["1", "true", "on", "yes"]

/-- Model of `CommandLineInterface.argBool`: `flag` is the docopt value of the
boolean option (`True`/`False`), `env` is `os.getenv(name)`. When the flag is
falsy, the result is whether the environment value is a member of
`('1', 'true', 'on', 'yes')`; an unset variable (`None`) is not a member. -/
def argBool (flag : Bool) (env : Option String) : Bool :=
  if flag then
    flag
  else
    match env with
    | some s => envTruthy.contains s
    | none => false

/-- Model of `CommandLineInterface.argStr`: `flag` is the docopt value of the
string option (`None` when absent), `env` is the environment binding for the
option name, `d` the default (the callers all use the default `''`). The
environment is consulted only when the flag value is `None`. -/
def argStr (flag : Option String) (env : Option String) (d : String) : String :=
  match flag with
  | some v => v
  | none =>
    match env with
    | some s => s
    | none => d

/-- The string-option resolver as the spec's words describe it (for
comparison with `argStr`): the flag value is used only when it is present AND
truthy (a non-empty string), otherwise the environment value, otherwise the
default. -/
def specArgStr (flag : Option String) (env : Option String) (d : String) : String :=
  match flag with
  | some v => if v ≠ "" then v else match env with | some s => s | none => d
  | none => match env with | some s => s | none => d

/-- The value contributed to the query mapping by a single raw token, for a
fixed parameter name `n`: `some v` when the token matches the pattern with
operator `==` and name `n`, `none` otherwise.  Used to state the
last-occurrence-wins property. -/
def queryValOf (n : String) (p : String) : Option String :=
  match matchParam p with
  | some (m, op, v) => if op = "==" then (if m = n then some v else none) else none
  | none => none

/-- The value contributed to the body mapping by a single raw token, for a
fixed parameter name `n` (operator `=`). -/
def bodyValOf (n : String) (p : String) : Option String :=
  match matchParam p with
  | some (m, op, v) => if op = "==" then none else (if m = n then some v else none)
  | none => none

/- A JSON value as returned by the remote service (the program's invocation
result).  Arrays and objects are mutually inductive lists so that all
functions over them are structurally recursive.  Floats are not modelled; no
claim depends on them. -/
mutual
inductive PyJson where
  | null : PyJson
  | bool : Bool → PyJson
  | int : Int → PyJson
  | str : String → PyJson
  | arr : PyJsonArray → PyJson
  | obj : PyJsonObject → PyJson

inductive PyJsonArray where
  | nil : PyJsonArray
  | cons : PyJson → PyJsonArray → PyJsonArray

inductive PyJsonObject where
  | nil : PyJsonObject
  | cons : String → PyJson → PyJsonObject → PyJsonObject
end

/-- Python string comparison `a < b` on code points (used by `sorted` on
`dict` keys). -/
def charListLt : List Char → List Char → Bool
  | [], [] => false
  | [], _ :: _ => true
  | _ :: _, [] => false
  | a :: as, b :: bs =>
    if a.toNat < b.toNat then true
    else if b.toNat < a.toNat then false
    else charListLt as bs

/-- `a < b` for Python strings. -/
def pyStrLt (a b : String) : Bool := charListLt a.data b.data

/-- Insert a key/value pair into an already-sorted field list, keeping it
sorted by key. -/
def insertField (k : String) (v : PyJson) : PyJsonObject → PyJsonObject
  | .nil => .cons k v .nil
  | .cons k0 v0 rest =>
    if pyStrLt k k0 then .cons k v (.cons k0 v0 rest)
    else .cons k0 v0 (insertField k v rest)

/-- Insertion sort of an object's fields by key, as `sort_keys=True` orders
them. -/
def sortFields : PyJsonObject → PyJsonObject
  | .nil => .nil
  | .cons k v rest => insertField k v (sortFields rest)

/- Sort the fields of every object in a JSON value, recursively.  Dumping
the result without sorting is what `json.dump(..., sort_keys=True)`
produces. -/
mutual
def sortJson : PyJson → PyJson
  | .null => .null
  | .bool b => .bool b
  | .int n => .int n
  | .str s => .str s
  | .arr xs => .arr (sortJsonArray xs)
  | .obj fs => .obj (sortFields (sortJsonObject fs))

def sortJsonArray : PyJsonArray → PyJsonArray
  | .nil => .nil
  | .cons x xs => .cons (sortJson x) (sortJsonArray xs)

def sortJsonObject : PyJsonObject → PyJsonObject
  | .nil => .nil
  | .cons k v rest => .cons k (sortJson v) (sortJsonObject rest)
end

/-- Lower-case hexadecimal digit. -/
def hexDigit (n : Nat) : Char :=
  if n < 10 then Char.ofNat ('0'.toNat + n) else Char.ofNat ('a'.toNat + (n - 10))

/-- Four lower-case hexadecimal digits, as in a JSON `\uXXXX` escape. -/
def hex4 (n : Nat) : String :=
  ⟨[hexDigit (n / 4096 % 16), hexDigit (n / 256 % 16), hexDigit (n / 16 % 16),
    hexDigit (n % 16)]⟩

/-- Escape of one character inside a JSON string literal, as Python's
`json.dump` emits it with the default `ensure_ascii=True`: the named escapes,
`\u00xx` for other control characters, `\uXXXX` (with surrogate pairs beyond
the basic plane) for non-ASCII, and the character itself otherwise. -/
def pyEscapeChar (c : Char) : String :=
  if c = '"' then "\\\""
  else if c = '\\' then "\\\\"
  else if c = '\n' then "\\n"
  else if c = '\t' then "\\t"
  else if c = '\r' then "\\r"
  else if c.toNat = 8 then "\\b"
  else if c.toNat = 12 then "\\f"
  else if c.toNat < 32 ∨ c.toNat > 126 then
    if c.toNat ≥ 65536 then
      let u := c.toNat - 65536
      "\\u" ++ hex4 (55296 + u / 1024) ++ "\\u" ++ hex4 (56320 + u % 1024)
    else
      "\\u" ++ hex4 c.toNat
  else String.singleton c

/-- A JSON string literal as Python's `json.dump` writes it. -/
def pyQuote (s : String) : String :=
  "\"" ++ String.join (s.data.map pyEscapeChar) ++ "\""

/-- `indent * level` spaces. -/
def indentOf (indent level : Nat) : String :=
  ⟨List.replicate (indent * level) ' '⟩

/- Modelled from the spec: Python's `json.dump` serialization (an excluded
standard-library collaborator) for a positive `indent`, at nesting depth
`level`.  Containers open on their own line, items are indented one level
deeper and separated by `,\n` (the default separators with an indent are
`(',', ': ')`), and the closing bracket is indented at the container's own
level; empty containers collapse to `[]` / empty braces. -/
mutual
def dumpJson (indent level : Nat) : PyJson → String
  | .null => "null"
  | .bool b => if b then "true" else "false"
  | .int n => toString n
  | .str s => pyQuote s
  | .arr .nil => "[]"
  | .arr (.cons x xs) =>
    "[\n" ++ String.intercalate ",\n" (dumpArray indent (level + 1) (.cons x xs))
      ++ "\n" ++ indentOf indent level ++ "]"
  | .obj .nil => "\x7b\x7d"
  | .obj (.cons k v rest) =>
    "\x7b\n" ++ String.intercalate ",\n" (dumpObject indent (level + 1) (.cons k v rest))
      ++ "\n" ++ indentOf indent level ++ "\x7d"

def dumpArray (indent level : Nat) : PyJsonArray → List String
  | .nil => []
  | .cons x xs =>
    (indentOf indent level ++ dumpJson indent level x) :: dumpArray indent level xs

def dumpObject (indent level : Nat) : PyJsonObject → List String
  | .nil => []
  | .cons k v rest =>
    (indentOf indent level ++ pyQuote k ++ ": " ++ dumpJson indent level v)
      :: dumpObject indent level rest
end

/-- Modelled from the spec: `json.dump(result, sys.stdout, indent=4,
sort_keys=True)` as a function of `result`, generalized over the indent width
and the `sort_keys` argument so that the values `main` passes are visible in
the theorems. -/
def jsonDump (indent : Nat) (sortKeys : Bool) (j : PyJson) : String :=
  dumpJson indent 0 (if sortKeys then sortJson j else j)

/-- The process environment, as queried by `os.getenv`. -/
def Env : Type := String → Option String

/-- The docopt argument record of one invocation: the positional `METHOD`,
`URL` and `PARAMS`, the valued options (`None` when not given), and the
boolean flags. -/
structure Args where
  method : String
  url : String
  params : List String
  host : Option String
  insecure : Bool
  accessToken : Option String
  clientId : Option String
  clientSecret : Option String
  username : Option String
  password : Option String
  unauthorized : Bool
  verbose : Bool
  debug : Bool

/-- The keyword arguments `main` passes to the `api.Client` constructor
(an external collaborator), after flag/environment resolution. -/
structure ClientConfig where
  host : String
  insecure : Bool
  verbose : Bool
  debug : Bool
  access_token : String
  client_id : String
  client_secret : String
  username : String
  password : String

/-- The `api.Client(...)` construction in `main`: every keyword argument is
resolved with `argStr` / `argBool` from the flag value and the environment
variable of the same name (flag name with `-` replaced by `_`). -/
def mkClient (a : Args) (e : Env) : ClientConfig where
  host := argStr a.host (e "host") ""
  insecure := argBool a.insecure (e "insecure")
  verbose := argBool a.verbose (e "verbose")
  debug := argBool a.debug (e "debug")
  access_token := argStr a.accessToken (e "access_token") ""
  client_id := argStr a.clientId (e "client_id") ""
  client_secret := argStr a.clientSecret (e "client_secret") ""
  username := argStr a.username (e "username") ""
  password := argStr a.password (e "password") ""

/-- The single `client.invoke(...)` call `main` makes: its receiver's
configuration and its five positional arguments.  `authRequired` is the last
argument, `not self.args['--unauthorized']`. -/
structure InvokeCall where
  client : ClientConfig
  method : String
  url : String
  query : List (String × String)
  body : List (String × String)
  authRequired : Bool

/-- The observable outcome of one run of `main`: the returned exit status
(passed to `sys.exit`), everything written to stdout and stderr, and the
`invoke` call made, if any. -/
structure MainResult where
  exitStatus : Nat
  stdout : String
  stderr : String
  invokeCall : Option InvokeCall

/-- The single line `main` writes to stderr for a `ConfigurationException`
with message `m`. -/
def errLine (m : String) : String :=
  "ERROR: Configuration error: " ++ m ++ "\n"

/-- Model of the body of `CommandLineInterface.main`: build the client
configuration, classify the parameters, validate the method, perform the
`invoke` call (the external dispatcher, passed in as the oracle `invoke`),
and on success dump the JSON result followed by `print("\n")`; any
`ConfigurationException` is caught, reported on stderr and turned into exit
status 3. -/
def mainModel (a : Args) (e : Env) (invoke : InvokeCall → Except String PyJson) :
    MainResult :=
  let client := mkClient a e
  match parseParams a.params with
  | Except.error m => ⟨3, "", errLine m, none⟩
  | Except.ok (query, body) =>
    match validateMethod a.method with
    | Except.error m => ⟨3, "", errLine m, none⟩
    | Except.ok meth =>
      let call : InvokeCall := ⟨client, meth, a.url, query, body, !a.unauthorized⟩
      match invoke call with
      | Except.error m => ⟨3, "", errLine m, some call⟩
      | Except.ok result => ⟨0, jsonDump 4 true result ++ "\n\n", "", some call⟩

/-- A concrete invocation (the spec's "lookup a guest account" scenario):
`GET /guest/3001` with no parameters and an access token. -/
def argsOkEx : Args :=
  { method := "GET", url := "/guest/3001", params := []
    host := some "clearpass.example.com", insecure := false
    accessToken := some "tok", clientId := none, clientSecret := none
    username := none, password := none
    unauthorized := false, verbose := false, debug := false }

/-- The same invocation with an unparseable parameter token. -/
def argsBadEx : Args := { argsOkEx with params := ["bad"] }

/-- An empty environment. -/
def envEx : Env := fun _ => none

/-- An environment that sets only the variable `unauthorized`. -/
def envEx2 : Env := fun k => if k = "unauthorized" then some "yes" else none

/-- A concrete JSON result returned by the dispatcher oracle. -/
def jEx : PyJson := PyJson.obj (PyJsonObject.cons "id" (PyJson.int 3001) PyJsonObject.nil)

/-- A dispatcher oracle that always succeeds with `jEx`. -/
def ivEx : InvokeCall → Except String PyJson := fun _ => Except.ok jEx

theorem isWordChar_eq_false : isWordChar '=' = false := by decide

theorem takeWord_word_prefix (l1 l2 : List Char) (h : l1.all isWordChar = true) :
    takeWord (l1 ++ '=' :: l2) = (l1, '=' :: l2) := by
  induction l1 with
  | nil => simp [takeWord, isWordChar_eq_false]
  | cons c cs ih =>
    simp only [List.all_cons, Bool.and_eq_true] at h
    simp [takeWord, h.1, ih h.2]

theorem takeWord_append : ∀ l : List Char, (takeWord l).1 ++ (takeWord l).2 = l := by
  intro l
  induction l with
  | nil => simp [takeWord]
  | cons c cs ih =>
    by_cases h : isWordChar c = true
    · simp [takeWord, h, ih]
    · simp [takeWord, h]

theorem takeWord_all_word : ∀ l : List Char, (takeWord l).1.all isWordChar = true := by
  intro l
  induction l with
  | nil => simp [takeWord]
  | cons c cs ih =>
    by_cases h : isWordChar c = true
    · simp [takeWord, h, ih]
    · simp [takeWord, h]

theorem data_ne_nil_of_ne_empty (s : String) (h : s ≠ "") : s.data ≠ [] := by
  intro hd
  exact h (String.ext (hd.trans rfl))

theorem mk_ne_empty (w : List Char) (h : w ≠ []) : (⟨w⟩ : String) ≠ "" := by
  intro he
  exact h (congrArg String.data he)

theorem matchParam_eq_some_query (n v : String) (hn : n ≠ "")
    (hw : n.data.all isWordChar = true) :
    matchParam (n ++ "==" ++ v) = some (n, "==", v) := by
  have hdata : (n ++ "==" ++ v).data = n.data ++ '=' :: ('=' :: v.data) := by
    rw [String.data_append, String.data_append]
    simp
  unfold matchParam
  rw [hdata, takeWord_word_prefix _ _ hw]
  simp [data_ne_nil_of_ne_empty n hn]

theorem matchParam_eq_some_body (n v : String) (hn : n ≠ "")
    (hw : n.data.all isWordChar = true) (hv : v.data.take 1 ≠ ['=']) :
    matchParam (n ++ "=" ++ v) = some (n, "=", v) := by
  have hdata : (n ++ "=" ++ v).data = n.data ++ '=' :: v.data := by
    rw [String.data_append, String.data_append]
    simp
  unfold matchParam
  rw [hdata, takeWord_word_prefix _ _ hw]
  have h2 : ('=' :: v.data).take 2 = '=' :: v.data.take 1 := rfl
  have h1' : ('=' :: v.data).take 1 = ['='] := rfl
  simp [data_ne_nil_of_ne_empty n hn, h2, hv, h1']

theorem matchParam_eq_empty_name (v : String) : matchParam ("=" ++ v) = none := by
  have hdata : ("=" ++ v).data = '=' :: v.data := rfl
  unfold matchParam
  rw [hdata]
  simp [takeWord, isWordChar_eq_false]

theorem matchParam_some_spec (t n op v : String)
    (h : matchParam t = some (n, op, v)) :
    n ≠ "" ∧ n.data.all isWordChar = true ∧ (op = "==" ∨ op = "=")
    ∧ t = n ++ op ++ v := by
  have happ := takeWord_append t.data
  have hall := takeWord_all_word t.data
  simp only [matchParam] at h
  by_cases h1 : (takeWord t.data).1 = []
  · rw [if_pos h1] at h
    exact absurd h (by simp)
  · rw [if_neg h1] at h
    by_cases h2 : ((takeWord t.data).2).take 2 = ['=', '=']
    · rw [if_pos h2] at h
      injection h with h'
      injection h' with ha hbc
      injection hbc with hb hc
      subst ha; subst hb; subst hc
      refine ⟨mk_ne_empty _ h1, hall, Or.inl rfl, ?_⟩
      have hr : (takeWord t.data).2
          = ['=', '='] ++ ((takeWord t.data).2).drop 2 := by
        conv_lhs => rw [← List.take_append_drop 2 (takeWord t.data).2]
        rw [h2]
      apply String.ext
      show t.data
        = ((takeWord t.data).1 ++ ['=', '=']) ++ ((takeWord t.data).2).drop 2
      rw [List.append_assoc, ← hr, happ]
    · rw [if_neg h2] at h
      by_cases h3 : ((takeWord t.data).2).take 1 = ['=']
      · rw [if_pos h3] at h
        injection h with h'
        injection h' with ha hbc
        injection hbc with hb hc
        subst ha; subst hb; subst hc
        refine ⟨mk_ne_empty _ h1, hall, Or.inr rfl, ?_⟩
        have hr : (takeWord t.data).2
            = ['='] ++ ((takeWord t.data).2).drop 1 := by
          conv_lhs => rw [← List.take_append_drop 1 (takeWord t.data).2]
          rw [h3]
        apply String.ext
        show t.data
          = ((takeWord t.data).1 ++ ['=']) ++ ((takeWord t.data).2).drop 1
        rw [List.append_assoc, ← hr, happ]
      · rw [if_neg h3] at h
        exact absurd h (by simp)

/-- C1: every raw parameter token matching `^(\w+)(==|=)(.*)$` (dot matching
newline) yields a name of word characters only and one of the two operators;
`parseParams` places the name/value pair into the query mapping when the
operator is `==` and into the body mapping when it is `=`; and the value
group is unconstrained: for this (non-empty, all-word) name, every value —
empty or with embedded line breaks — is matched verbatim after `==`. -/
theorem parseParams_classifies (t n op v : String)
    (h : matchParam t = some (n, op, v)) :
    n ≠ "" ∧ n.data.all isWordChar = true ∧ (op = "==" ∨ op = "=")
    ∧ t = n ++ op ++ v
    ∧ (op = "==" → parseParams [t] = Except.ok ([(n, v)], []))
    ∧ (op = "=" → parseParams [t] = Except.ok ([], [(n, v)]))
    ∧ (∀ v2 : String, matchParam (n ++ "==" ++ v2) = some (n, "==", v2)) := by
  obtain ⟨hn, hw, hop, ht⟩ := matchParam_some_spec t n op v h
  refine ⟨hn, hw, hop, ht, ?_, ?_, ?_⟩
  · intro hq
    subst hq
    simp [parseParams, paramsStep, h, dictInsert]
  · intro hb
    subst hb
    simp [parseParams, paramsStep, h, dictInsert,
      show ("=" : String) ≠ "==" by decide]
  · intro v2
    exact matchParam_eq_some_query n v2 hn hw

/-- Witness for C1 at the token `"a==b\nc"` (a value with an embedded line
break). -/
theorem parseParams_classifies_witness :
    ("a" : String) ≠ "" ∧ ("a" : String).data.all isWordChar = true
    ∧ (("==" : String) = "==" ∨ ("==" : String) = "=")
    ∧ "a==b\nc" = "a" ++ "==" ++ "b\nc"
    ∧ (("==" : String) = "==" →
        parseParams ["a==b\nc"] = Except.ok ([("a", "b\nc")], []))
    ∧ (("==" : String) = "=" →
        parseParams ["a==b\nc"] = Except.ok ([], [("a", "b\nc")]))
    ∧ (∀ v2 : String, matchParam ("a" ++ "==" ++ v2) = some ("a", "==", v2)) :=
  parseParams_classifies "a==b\nc" "a" "==" "b\nc" (by decide)

/-- C10: the alternation `==|=` prefers the two-character operator, so a
token `name ++ "===" ++ rest` is a query parameter with value `"=" ++ rest`
(not a body parameter with value `"==" ++ rest`); and a token whose name
part is empty — `"=" ++ v`, which also covers `"==" ++ v` via `v` starting
with `=` — fails the pattern and is accumulated as a bad parameter. -/
theorem parseParams_operator_preference (n rest : String) (hn : n ≠ "")
    (hw : n.data.all isWordChar = true) :
    matchParam (n ++ "===" ++ rest) = some (n, "==", "=" ++ rest)
    ∧ parseParams [n ++ "===" ++ rest] = Except.ok ([(n, "=" ++ rest)], [])
    ∧ (∀ v : String, matchParam ("=" ++ v) = none
        ∧ parseParams ["=" ++ v]
          = Except.error ("Invalid parameter(s): " ++ ("=" ++ v))) := by
  have key : n ++ "===" ++ rest = n ++ "==" ++ ("=" ++ rest) := by
    apply String.ext
    rw [String.data_append, String.data_append, String.data_append,
      String.data_append]
    simp
  have hm := matchParam_eq_some_query n ("=" ++ rest) hn hw
  refine ⟨?_, ?_, ?_⟩
  · rw [key]; exact hm
  · rw [key]
    simp [parseParams, paramsStep, hm, dictInsert]
  · intro v
    have hnone := matchParam_eq_empty_name v
    refine ⟨hnone, ?_⟩
    simp [parseParams, paramsStep, hnone, String.intercalate, String.intercalate.go]

/-- Witness for C10 at name `"a"` and rest `"b"`: `"a===b"` goes to the
query mapping with value `"=b"`, and `"=x"` is rejected as a bad
parameter. -/
theorem parseParams_operator_preference_witness :
    matchParam ("a" ++ "===" ++ "b") = some ("a", "==", "=" ++ "b")
    ∧ parseParams ["a" ++ "===" ++ "b"] = Except.ok ([("a", "=" ++ "b")], [])
    ∧ (∀ v : String, matchParam ("=" ++ v) = none
        ∧ parseParams ["=" ++ v]
          = Except.error ("Invalid parameter(s): " ++ ("=" ++ v))) :=
  parseParams_operator_preference "a" "b" (by decide) (by decide)

/-- C4: `validateMethod` upper-cases the token and compares it against the
fixed set `{GET, POST, PATCH, PUT, DELETE}` — so matching is
case-insensitive and the canonical upper-case form is returned (`get`,
`GET`, `Get` all yield `GET`) — and any token outside the set is rejected
with a configuration error naming the invalid method (`FETCH` names
`FETCH`). -/
theorem validateMethod_spec (m : String) :
    (pyUpper m ∈ httpMethods → validateMethod m = Except.ok (pyUpper m))
    ∧ (pyUpper m ∉ httpMethods →
        validateMethod m = Except.error ("Invalid HTTP method: " ++ m))
    ∧ validateMethod "get" = Except.ok "GET"
    ∧ validateMethod "GET" = Except.ok "GET"
    ∧ validateMethod "Get" = Except.ok "GET"
    ∧ validateMethod "FETCH" = Except.error "Invalid HTTP method: FETCH" := by
  refine ⟨?_, ?_, rfl, rfl, rfl, rfl⟩
  · intro h; simp [validateMethod, h]
  · intro h; simp [validateMethod, h]

/-- Witness for C4 at `"delete"` (accepted, canonicalized) and `"fetch"`
(rejected, named in the message). -/
theorem validateMethod_spec_witness :
    validateMethod "delete" = Except.ok (pyUpper "delete")
    ∧ validateMethod "fetch" = Except.error ("Invalid HTTP method: " ++ "fetch") :=
  ⟨(validateMethod_spec "delete").1 (by decide),
   (validateMethod_spec "fetch").2.1 (by decide)⟩

/-- C5: with no command-line flag (`flag = false`), `argBool` coerces the
environment value by case-sensitive membership in `{"1", "true", "on",
"yes"}`: exactly those four strings resolve truthy, while `no`, `0`, any
other string, or an unset variable resolve falsy. -/
theorem argBool_env_coercion (s : String) :
    (argBool false (some s) = true ↔ s = "1" ∨ s = "true" ∨ s = "on" ∨ s = "yes")
    ∧ argBool false none = false
    ∧ argBool false (some "no") = false
    ∧ argBool false (some "0") = false
    ∧ argBool false (some "yes") = true
    ∧ argBool false (some "Yes") = false := by
  refine ⟨?_, rfl, by decide, by decide, by decide, by decide⟩
  simp [argBool, envTruthy, List.contains]

/-- Witness for C5 at the environment value `"on"`. -/
theorem argBool_env_coercion_witness :
    argBool false (some "on") = true ∧ argBool false none = false :=
  ⟨((argBool_env_coercion "on").1).mpr (by decide), (argBool_env_coercion "on").2.1⟩

/-- C3 counterexample: the claim resolves a present-but-falsy (empty) flag
value from the environment, but `argStr` checks the flag value against
`None`, not truthiness — with flag value `''` and environment
`host=foo.example.com` the code resolves `''` while the claim's rule
(`specArgStr`) resolves `foo.example.com`. -/
theorem argStr_truthiness_counterexample :
    argStr (some "") (some "foo.example.com") "" = ""
    ∧ specArgStr (some "") (some "foo.example.com") "" = "foo.example.com"
    ∧ argStr (some "") (some "foo.example.com") ""
        ≠ specArgStr (some "") (some "foo.example.com") "" := by
  refine ⟨rfl, rfl, ?_⟩
  decide

/-- C3 (amended): for string options the flag value wins whenever it is
present (checked against `None`, even if empty), for boolean options
whenever it is truthy; otherwise the environment variable is used (strings:
its value verbatim; booleans: coerced through the truthy set); otherwise the
default. In particular, when both a (non-`None` / truthy) flag value and an
environment value are present, the flag value wins, and when only the
environment variable is set, its value is used. -/
theorem arg_resolution (fv : Option String) (e : Option String) (d : String)
    (fb : Bool) :
    (∀ v, fv = some v → argStr fv e d = v)
    ∧ (fv = none → ∀ s, e = some s → argStr fv e d = s)
    ∧ (fv = none → e = none → argStr fv e d = d)
    ∧ (fb = true → argBool fb e = true)
    ∧ (fb = false → ∀ s, e = some s → argBool fb e = envTruthy.contains s)
    ∧ (fb = false → e = none → argBool fb e = false) := by
  refine ⟨?_, ?_, ?_, ?_, ?_, ?_⟩ <;> intros <;> subst_vars <;> simp [argStr, argBool]

/-- Witness for C3 (amended): both present — the flag wins; flag absent —
the environment value is used; boolean flag absent — the environment value
is coerced. -/
theorem arg_resolution_witness :
    argStr (some "bar.example.com") (some "foo.example.com") "" = "bar.example.com"
    ∧ argStr none (some "foo.example.com") "" = "foo.example.com"
    ∧ argBool false (some "1") = envTruthy.contains "1" :=
  ⟨(arg_resolution (some "bar.example.com") (some "foo.example.com") "" false).1
      "bar.example.com" rfl,
   (arg_resolution none (some "foo.example.com") "" false).2.1 rfl
      "foo.example.com" rfl,
   (arg_resolution none (some "1") "" false).2.2.2.2.1 rfl "1" rfl⟩

theorem foldl_paramsStep_bad (ps : List String) :
    ∀ acc : List (String × String) × List (String × String) × List String,
      (ps.foldl paramsStep acc).2.2
        = acc.2.2 ++ ps.filter (fun p => (matchParam p).isNone) := by
  induction ps with
  | nil => intro acc; simp
  | cons p rest ih =>
    intro acc
    rw [List.foldl_cons, ih]
    cases hm : matchParam p with
    | none =>
      simp [paramsStep, hm, List.filter_cons]
    | some nov =>
      obtain ⟨name, op, value⟩ := nov
      by_cases hop : op = "=="
      · simp [paramsStep, hm, hop, List.filter_cons]
      · simp [paramsStep, hm, hop, List.filter_cons]

/-- C2: `parseParams` succeeds exactly when every token matches the pattern;
with `M > 0` invalid tokens it does not fail fast but scans the whole
sequence and raises one configuration error whose message enumerates
exactly the invalid tokens, in input order, joined by `", "`. -/
theorem parseParams_error_report (ps : List String) :
    ((∃ qb, parseParams ps = Except.ok qb)
      ↔ ps.filter (fun p => (matchParam p).isNone) = [])
    ∧ (ps.filter (fun p => (matchParam p).isNone) ≠ [] →
        parseParams ps = Except.error ("Invalid parameter(s): "
          ++ String.intercalate ", "
            (ps.filter (fun p => (matchParam p).isNone)))) := by
  have hbad : (ps.foldl paramsStep ([], [], [])).2.2
      = ps.filter (fun p => (matchParam p).isNone) := by
    simpa using foldl_paramsStep_bad ps ([], [], [])
  constructor
  · constructor
    · rintro ⟨qb, hok⟩
      by_contra hne
      simp only [parseParams] at hok
      rw [hbad, if_neg hne] at hok
      exact absurd hok (by simp)
    · intro hempty
      refine ⟨((ps.foldl paramsStep ([], [], [])).1,
        (ps.foldl paramsStep ([], [], [])).2.1), ?_⟩
      simp only [parseParams]
      rw [hbad, if_pos hempty]
  · intro hne
    simp only [parseParams]
    rw [hbad, if_neg hne]

/-- Witness for C2: two valid and two invalid tokens — the error message
lists exactly the two invalid ones, in input order, comma-separated. -/
theorem parseParams_error_report_witness :
    parseParams ["a=1", "bad", "x==2", "also bad"]
      = Except.error "Invalid parameter(s): bad, also bad" :=
  ((parseParams_error_report ["a=1", "bad", "x==2", "also bad"]).2 (by decide)).trans
    (congrArg Except.error (by decide))

theorem getLast?_cons_ne_none {α : Type} (b : α) (t : List α) :
    (b :: t).getLast? ≠ none := by
  induction t generalizing b with
  | nil => simp
  | cons c t ih => rw [List.getLast?_cons_cons]; exact ih c

theorem dictGet_dictInsert (d : List (String × String)) (k k' v : String) :
    dictGet (dictInsert d k v) k' = if k = k' then some v else dictGet d k' := by
  induction d with
  | nil => simp [dictInsert, dictGet]
  | cons p rest ih =>
    obtain ⟨k0, v0⟩ := p
    by_cases h : k0 = k
    · subst h
      by_cases h' : k0 = k'
      · subst h'; simp [dictInsert, dictGet]
      · simp [dictInsert, dictGet, h']
    · by_cases h' : k0 = k'
      · subst h'
        have hk : ¬k = k0 := fun hh => h hh.symm
        simp [dictInsert, dictGet, h, hk]
      · simp [dictInsert, dictGet, h, h', ih]

theorem paramsStep_query_other (acc : List (String × String) ×
    List (String × String) × List String) (p n : String)
    (hq : queryValOf n p = none) :
    dictGet ((paramsStep acc p).1) n = dictGet acc.1 n := by
  cases hm : matchParam p with
  | none => simp [paramsStep, hm]
  | some nov =>
    obtain ⟨m, op, v⟩ := nov
    by_cases hop : op = "=="
    · subst hop
      have hmn : ¬m = n := by
        intro hh
        rw [queryValOf, hm] at hq
        simp [hh] at hq
      simp [paramsStep, hm, dictGet_dictInsert, hmn]
    · simp [paramsStep, hm, hop]

theorem paramsStep_body_other (acc : List (String × String) ×
    List (String × String) × List String) (p n : String)
    (hq : bodyValOf n p = none) :
    dictGet ((paramsStep acc p).2.1) n = dictGet acc.2.1 n := by
  cases hm : matchParam p with
  | none => simp [paramsStep, hm]
  | some nov =>
    obtain ⟨m, op, v⟩ := nov
    by_cases hop : op = "=="
    · simp [paramsStep, hm, hop]
    · have hmn : ¬m = n := by
        intro hh
        rw [bodyValOf, hm] at hq
        simp [hh, hop] at hq
      simp [paramsStep, hm, hop, dictGet_dictInsert, hmn]

theorem foldl_paramsStep_query_none (n : String) (ps : List String) :
    ∀ acc : List (String × String) × List (String × String) × List String,
      ps.filterMap (queryValOf n) = [] →
      dictGet ((ps.foldl paramsStep acc).1) n = dictGet acc.1 n := by
  induction ps with
  | nil => intro acc _; rfl
  | cons p rest ih =>
    intro acc hnil
    cases hq : queryValOf n p with
    | some u => rw [List.filterMap_cons_some hq] at hnil; exact absurd hnil (by simp)
    | none =>
      rw [List.filterMap_cons_none hq] at hnil
      rw [List.foldl_cons, ih _ hnil, paramsStep_query_other acc p n hq]

theorem foldl_paramsStep_body_none (n : String) (ps : List String) :
    ∀ acc : List (String × String) × List (String × String) × List String,
      ps.filterMap (bodyValOf n) = [] →
      dictGet ((ps.foldl paramsStep acc).2.1) n = dictGet acc.2.1 n := by
  induction ps with
  | nil => intro acc _; rfl
  | cons p rest ih =>
    intro acc hnil
    cases hq : bodyValOf n p with
    | some u => rw [List.filterMap_cons_some hq] at hnil; exact absurd hnil (by simp)
    | none =>
      rw [List.filterMap_cons_none hq] at hnil
      rw [List.foldl_cons, ih _ hnil, paramsStep_body_other acc p n hq]

theorem foldl_paramsStep_query_some (n : String) (ps : List String) :
    ∀ (acc : List (String × String) × List (String × String) × List String)
      (v : String),
      (ps.filterMap (queryValOf n)).getLast? = some v →
      dictGet ((ps.foldl paramsStep acc).1) n = some v := by
  induction ps with
  | nil => intro acc v h; simp at h
  | cons p rest ih =>
    intro acc v h
    rw [List.foldl_cons]
    cases hq : queryValOf n p with
    | none =>
      rw [List.filterMap_cons_none hq] at h
      exact ih _ v h
    | some u =>
      rw [List.filterMap_cons_some hq] at h
      cases hrest : rest.filterMap (queryValOf n) with
      | nil =>
        rw [hrest] at h
        simp only [List.getLast?_singleton, Option.some.injEq] at h
        subst h
        rw [foldl_paramsStep_query_none n rest _ hrest]
        have hm : matchParam p = some (n, "==", u) := by
          cases hmm : matchParam p with
          | none => simp [queryValOf, hmm] at hq
          | some nov =>
            obtain ⟨m, op, u'⟩ := nov
            by_cases hop : op = "=="
            · subst hop
              by_cases hmn : m = n
              · subst hmn
                simp [queryValOf, hmm] at hq
                subst hq
                rfl
              · simp [queryValOf, hmm, hmn] at hq
            · simp [queryValOf, hmm, hop] at hq
        simp [paramsStep, hm, dictGet_dictInsert]
      | cons b t =>
        rw [hrest, List.getLast?_cons_cons, ← hrest] at h
        exact ih _ v h

theorem foldl_paramsStep_body_some (n : String) (ps : List String) :
    ∀ (acc : List (String × String) × List (String × String) × List String)
      (v : String),
      (ps.filterMap (bodyValOf n)).getLast? = some v →
      dictGet ((ps.foldl paramsStep acc).2.1) n = some v := by
  induction ps with
  | nil => intro acc v h; simp at h
  | cons p rest ih =>
    intro acc v h
    rw [List.foldl_cons]
    cases hq : bodyValOf n p with
    | none =>
      rw [List.filterMap_cons_none hq] at h
      exact ih _ v h
    | some u =>
      rw [List.filterMap_cons_some hq] at h
      cases hrest : rest.filterMap (bodyValOf n) with
      | nil =>
        rw [hrest] at h
        simp only [List.getLast?_singleton, Option.some.injEq] at h
        subst h
        rw [foldl_paramsStep_body_none n rest _ hrest]
        have hm : ∃ op, matchParam p = some (n, op, u) ∧ ¬op = "==" := by
          cases hmm : matchParam p with
          | none => simp [bodyValOf, hmm] at hq
          | some nov =>
            obtain ⟨m, op, u'⟩ := nov
            by_cases hop : op = "=="
            · simp [bodyValOf, hmm, hop] at hq
            · by_cases hmn : m = n
              · subst hmn
                simp [bodyValOf, hmm, hop] at hq
                subst hq
                exact ⟨op, rfl, hop⟩
              · simp [bodyValOf, hmm, hop, hmn] at hq
        obtain ⟨op, hm, hop⟩ := hm
        simp [paramsStep, hm, hop, dictGet_dictInsert]
      | cons b t =>
        rw [hrest, List.getLast?_cons_cons, ← hrest] at h
        exact ih _ v h

/-- C8: when several valid tokens share the same name and the same
classification, the resulting mapping binds that name to the value of the
last such occurrence in input order (for each of the query and body
mappings, the binding of every name is the last value contributed by
a token of that name and classification). -/
theorem parseParams_last_wins (params : List String)
    (q b : List (String × String))
    (h : parseParams params = Except.ok (q, b)) (n : String) :
    dictGet q n = (params.filterMap (queryValOf n)).getLast?
    ∧ dictGet b n = (params.filterMap (bodyValOf n)).getLast? := by
  have hqb : q = (params.foldl paramsStep ([], [], [])).1
      ∧ b = (params.foldl paramsStep ([], [], [])).2.1 := by
    simp only [parseParams] at h
    by_cases hbad : (params.foldl paramsStep ([], [], [])).2.2 = []
    · rw [if_pos hbad] at h
      injection h with h'
      injection h' with h1 h2
      exact ⟨h1.symm, h2.symm⟩
    · rw [if_neg hbad] at h
      exact absurd h (by simp)
  obtain ⟨hq1, hb1⟩ := hqb
  subst hq1; subst hb1
  constructor
  · cases hlast : (params.filterMap (queryValOf n)).getLast? with
    | none =>
      have hnil : params.filterMap (queryValOf n) = [] := by
        cases hfm : params.filterMap (queryValOf n) with
        | nil => rfl
        | cons x xs => rw [hfm] at hlast; exact absurd hlast (getLast?_cons_ne_none x xs)
      rw [foldl_paramsStep_query_none n params ([], [], []) hnil]
      rfl
    | some v => exact foldl_paramsStep_query_some n params ([], [], []) v hlast
  · cases hlast : (params.filterMap (bodyValOf n)).getLast? with
    | none =>
      have hnil : params.filterMap (bodyValOf n) = [] := by
        cases hfm : params.filterMap (bodyValOf n) with
        | nil => rfl
        | cons x xs => rw [hfm] at hlast; exact absurd hlast (getLast?_cons_ne_none x xs)
      rw [foldl_paramsStep_body_none n params ([], [], []) hnil]
      rfl
    | some v => exact foldl_paramsStep_body_some n params ([], [], []) v hlast

/-- Witness for C8: `a==1 a==2 a=3` — the query mapping binds `a` to `2`
(last query occurrence) and the body mapping binds `a` to `3`. -/
theorem parseParams_last_wins_witness :
    dictGet [("a", "2")] "a"
      = ((["a==1", "a==2", "a=3"] : List String).filterMap (queryValOf "a")).getLast?
    ∧ dictGet [("a", "3")] "a"
      = ((["a==1", "a==2", "a=3"] : List String).filterMap (bodyValOf "a")).getLast? :=
  parseParams_last_wins ["a==1", "a==2", "a=3"] [("a", "2")] [("a", "3")] rfl "a"

theorem mainModel_invokeCall_shape (a : Args) (e : Env)
    (iv : InvokeCall → Except String PyJson) :
    (mainModel a e iv).invokeCall = none
    ∨ ∃ q b meth, (mainModel a e iv).invokeCall
        = some ⟨mkClient a e, meth, a.url, q, b, !a.unauthorized⟩ := by
  rcases hp : parseParams a.params with m | ⟨q, b⟩
  · left; simp [mainModel, hp]
  · rcases hv : validateMethod a.method with m | meth
    · left; simp [mainModel, hp, hv]
    · rcases hi : iv ⟨mkClient a e, meth, a.url, q, b, !a.unauthorized⟩ with m | j
      · right; exact ⟨q, b, meth, by simp [mainModel, hp, hv, hi]⟩
      · right; exact ⟨q, b, meth, by simp [mainModel, hp, hv, hi]⟩

/-- C6: every configuration error (invalid method, unparseable parameter,
or an error raised by the dispatcher, which covers insufficient or
contradictory credentials) is caught at the top level of `main`, reported to
standard error as the single line `ERROR: Configuration error: <message>`,
and mapped to exit status 3 with nothing written to standard output; the
exit status is 0 exactly when every stage succeeded. -/
theorem mainModel_configuration_errors (a : Args) (e : Env)
    (iv : InvokeCall → Except String PyJson) :
    ((mainModel a e iv).exitStatus = 0 ∨ (mainModel a e iv).exitStatus = 3)
    ∧ ((mainModel a e iv).exitStatus = 3 →
        (mainModel a e iv).stdout = ""
        ∧ ∃ m, (mainModel a e iv).stderr
              = "ERROR: Configuration error: " ++ m ++ "\n"
            ∧ (parseParams a.params = Except.error m
               ∨ validateMethod a.method = Except.error m
               ∨ ∃ c, (mainModel a e iv).invokeCall = some c
                   ∧ iv c = Except.error m))
    ∧ ((mainModel a e iv).exitStatus = 0 ↔
        ∃ q b meth j, parseParams a.params = Except.ok (q, b)
          ∧ validateMethod a.method = Except.ok meth
          ∧ iv ⟨mkClient a e, meth, a.url, q, b, !a.unauthorized⟩ = Except.ok j)
    ∧ ((mainModel a e iv).exitStatus = 0 → (mainModel a e iv).stderr = "") := by
  rcases hp : parseParams a.params with m | ⟨q, b⟩
  · refine ⟨Or.inr (by simp [mainModel, hp]), ?_, ?_, ?_⟩
    · intro _
      exact ⟨by simp [mainModel, hp], m, by simp [mainModel, hp, errLine], Or.inl rfl⟩
    · constructor
      · intro h0; exact absurd h0 (by simp [mainModel, hp])
      · rintro ⟨q, b, meth, j, hok, -, -⟩
        exact absurd hok (by simp)
    · intro h0; exact absurd h0 (by simp [mainModel, hp])
  · rcases hv : validateMethod a.method with m | meth
    · refine ⟨Or.inr (by simp [mainModel, hp, hv]), ?_, ?_, ?_⟩
      · intro _
        exact ⟨by simp [mainModel, hp, hv], m,
          by simp [mainModel, hp, hv, errLine], Or.inr (Or.inl rfl)⟩
      · constructor
        · intro h0; exact absurd h0 (by simp [mainModel, hp, hv])
        · rintro ⟨q', b', meth', j, -, hvok, -⟩
          exact absurd hvok (by simp)
      · intro h0; exact absurd h0 (by simp [mainModel, hp, hv])
    · rcases hi : iv ⟨mkClient a e, meth, a.url, q, b, !a.unauthorized⟩ with m | j
      · refine ⟨Or.inr (by simp [mainModel, hp, hv, hi]), ?_, ?_, ?_⟩
        · intro _
          refine ⟨by simp [mainModel, hp, hv, hi], m,
            by simp [mainModel, hp, hv, hi, errLine],
            Or.inr (Or.inr ⟨⟨mkClient a e, meth, a.url, q, b, !a.unauthorized⟩,
              by simp [mainModel, hp, hv, hi], hi⟩)⟩
        · constructor
          · intro h0; exact absurd h0 (by simp [mainModel, hp, hv, hi])
          · rintro ⟨q', b', meth', j, hok, hvok, hiok⟩
            injection hok with hok
            injection hok with hok1 hok2
            subst hok1; subst hok2
            injection hvok with hvok
            subst hvok
            rw [hi] at hiok
            exact absurd hiok (by simp)
        · intro h0; exact absurd h0 (by simp [mainModel, hp, hv, hi])
      · refine ⟨Or.inl (by simp [mainModel, hp, hv, hi]), ?_, ?_, ?_⟩
        · intro h3; exact absurd h3 (by simp [mainModel, hp, hv, hi])
        · constructor
          · intro _; exact ⟨q, b, meth, j, rfl, rfl, hi⟩
          · intro _; simp [mainModel, hp, hv, hi]
        · intro _; simp [mainModel, hp, hv, hi]

/-- Witness for C6: with the unparseable token `bad` the run writes nothing
to stdout, reports the single stderr line and exits with status 3; the
fully successful run exits with status 0. -/
theorem mainModel_configuration_errors_witness :
    ((mainModel argsBadEx envEx ivEx).stdout = ""
      ∧ ∃ m, (mainModel argsBadEx envEx ivEx).stderr
            = "ERROR: Configuration error: " ++ m ++ "\n"
          ∧ (parseParams argsBadEx.params = Except.error m
             ∨ validateMethod argsBadEx.method = Except.error m
             ∨ ∃ c, (mainModel argsBadEx envEx ivEx).invokeCall = some c
                 ∧ ivEx c = Except.error m))
    ∧ (mainModel argsOkEx envEx ivEx).exitStatus = 0 :=
  ⟨(mainModel_configuration_errors argsBadEx envEx ivEx).2.1 rfl,
   ((mainModel_configuration_errors argsOkEx envEx ivEx).2.2.1).mpr
      ⟨[], [], "GET", jEx, rfl, rfl, rfl⟩⟩

/-- C7: on success, `main` writes to standard output exactly the JSON
result serialized with a 4-space indent and sorted keys
(`json.dump(result, sys.stdout, indent=4, sort_keys=True)`), followed by
`print("\n")` — a newline ending the JSON text plus a trailing blank
line — and exits with status 0 having written nothing to stderr. -/
theorem mainModel_success_output (a : Args) (e : Env)
    (iv : InvokeCall → Except String PyJson) (q b : List (String × String))
    (meth : String) (j : PyJson)
    (h1 : parseParams a.params = Except.ok (q, b))
    (h2 : validateMethod a.method = Except.ok meth)
    (h3 : iv ⟨mkClient a e, meth, a.url, q, b, !a.unauthorized⟩ = Except.ok j) :
    (mainModel a e iv).stdout = jsonDump 4 true j ++ "\n\n"
    ∧ (mainModel a e iv).exitStatus = 0
    ∧ (mainModel a e iv).stderr = "" := by
  refine ⟨?_, ?_, ?_⟩ <;> simp [mainModel, h1, h2, h3]

/-- Witness for C7 at the concrete success run `GET /guest/3001`. -/
theorem mainModel_success_output_witness :
    (mainModel argsOkEx envEx ivEx).stdout = jsonDump 4 true jEx ++ "\n\n"
    ∧ (mainModel argsOkEx envEx ivEx).exitStatus = 0
    ∧ (mainModel argsOkEx envEx ivEx).stderr = "" :=
  mainModel_success_output argsOkEx envEx ivEx [] [] "GET" jEx rfl rfl rfl

/-- C9: the unauthorized-skip flag is resolved from the command line only,
with no environment fallback: two environments that agree everywhere except
(possibly) at the variable `unauthorized` produce identical runs, and the
authorization-required argument of the dispatcher call is always exactly
the negation of the `--unauthorized` flag. -/
theorem mainModel_unauthorized_cli_only (a : Args) (e1 e2 : Env)
    (iv : InvokeCall → Except String PyJson)
    (h : ∀ k : String, k ≠ "unauthorized" → e1 k = e2 k) :
    mainModel a e1 iv = mainModel a e2 iv
    ∧ ∀ c, (mainModel a e1 iv).invokeCall = some c →
        c.authRequired = !a.unauthorized := by
  have hc : mkClient a e1 = mkClient a e2 := by
    unfold mkClient
    rw [h "host" (by decide), h "insecure" (by decide), h "verbose" (by decide),
      h "debug" (by decide), h "access_token" (by decide),
      h "client_id" (by decide), h "client_secret" (by decide),
      h "username" (by decide), h "password" (by decide)]
  constructor
  · unfold mainModel
    rw [hc]
  · intro c hcall
    rcases mainModel_invokeCall_shape a e1 iv with hnone | ⟨q, b, meth, hsome⟩
    · rw [hnone] at hcall
      exact absurd hcall (by simp)
    · rw [hsome] at hcall
      injection hcall with hcall
      rw [← hcall]

/-- Witness for C9: the empty environment and the environment that sets
only `unauthorized=yes` produce identical runs. -/
theorem mainModel_unauthorized_cli_only_witness :
    mainModel argsOkEx envEx ivEx = mainModel argsOkEx envEx2 ivEx
    ∧ ∀ c, (mainModel argsOkEx envEx ivEx).invokeCall = some c →
        c.authRequired = !argsOkEx.unauthorized :=
  mainModel_unauthorized_cli_only argsOkEx envEx envEx2 ivEx
    (fun _k hk => (if_neg hk).symm)

end Cpapi
